import Mathlib

/-!
Verification of the market-maker strategy in `src/strategies/marketmaker.js`
of the dex-bot repository.

Numbers are modelled as exact rationals (ℚ). The source computes with
bignumber.js decimal values; its `plus` and `times` are exact, while
`dividedBy` rounds the quotient to `DECIMAL_PLACES` (default 20) decimal
places with the default mode `ROUND_HALF_UP` - this is modelled by `bnDiv`.
Conversions between JavaScript numbers and BigNumber values (the unary `+`
coercions and `Math.max` applied to a single value) are modelled as exact,
i.e. the idealisation ignores the binary-double representation of the
JavaScript `number` type.

Rounding modes of bignumber.js used by the source:
`ROUND_DOWN` rounds towards zero, `ROUND_UP` rounds away from zero,
`ROUND_HALF_UP` rounds to the nearest neighbour, ties away from zero.
`toFixed(dp, mode)` and `decimalPlaces(dp, mode)` are numerically the same
operation; both are modelled by the `rd*` functions below.
-/

/-- Floor of a rational as an integer, computable by kernel reduction
(`Int.fdiv` by the positive denominator). -/
def qfloor (q : ℚ) : ℤ := q.num.fdiv q.den

/-- Ceiling of a rational as an integer. -/
def qceil (q : ℚ) : ℤ := -qfloor (-q)

/-- Rounding to `dp` decimal places towards zero: bignumber.js `ROUND_DOWN`. -/
def rdDown (dp : ℕ) (q : ℚ) : ℚ :=
  if 0 ≤ q then (qfloor (q * 10 ^ dp) : ℚ) / 10 ^ dp
  else -((qfloor (-q * 10 ^ dp) : ℚ) / 10 ^ dp)

/-- Rounding to `dp` decimal places away from zero: bignumber.js `ROUND_UP`. -/
def rdUp (dp : ℕ) (q : ℚ) : ℚ :=
  if 0 ≤ q then (qceil (q * 10 ^ dp) : ℚ) / 10 ^ dp
  else -((qceil (-q * 10 ^ dp) : ℚ) / 10 ^ dp)

/-- Rounding to `dp` decimal places, nearest neighbour, ties away from zero:
bignumber.js `ROUND_HALF_UP`, the default rounding mode. -/
def rdHalfUp (dp : ℕ) (q : ℚ) : ℚ :=
  if 0 ≤ q then (qfloor (q * 10 ^ dp + 1/2) : ℚ) / 10 ^ dp
  else -((qfloor (-q * 10 ^ dp + 1/2) : ℚ) / 10 ^ dp)

/-- bignumber.js `dividedBy`: the quotient is rounded to `DECIMAL_PLACES`
(default 20) decimal places using the default mode `ROUND_HALF_UP`. -/
def bnDiv (x y : ℚ) : ℚ := rdHalfUp 20 (x / y)

/-- Order sides, from `ORDERSIDES` in `dexrpc.js`. -/
inductive OrderSide where
  | BUY
  | SELL
deriving DecidableEq

/-- Token data carried by a market: decimal precision and raw-unit multiplier. -/
structure Token where
  precision : ℕ
  multiplier : ℚ
deriving DecidableEq

/-- Market record, as used by the strategy. -/
structure Market where
  market_id : ℕ
  bid_token : Token
  ask_token : Token
  order_min : ℚ
deriving DecidableEq

/-- Open order as returned by `fetchOpenOrders`, restricted to the fields read
by the strategy. -/
structure OpenOrder where
  order_side : OrderSide
  market_id : ℕ
deriving DecidableEq

/-- Result of `getMarketDetails` (lines 13-28 of the source). -/
structure MarketDetails where
  highestBid : ℚ
  lowestAsk : ℚ
  market : Market
  price : ℚ
deriving DecidableEq

/-- Order produced by `createBuyOrder` and `createSellOrder`. -/
structure LadderOrder where
  orderSide : OrderSide
  price : ℚ
  quantity : ℚ
  marketSymbol : String
deriving DecidableEq

/-- Result object of `getQuantityAndAdjustedTotal`. -/
structure QuantityTotal where
  adjustedTotal : ℚ
  quantity : ℚ
deriving DecidableEq

/-- Per-pair configuration from `config.marketmaker.pairs`. -/
structure PairConfig where
  symbol : String
  gridInterval : ℚ
  base : String
deriving DecidableEq

/-- Process-wide configuration read by the strategy module: `username`,
`marketmaker.gridLevels` and `marketmaker.pairs`. -/
structure MMConfig where
  username : String
  gridLevels : ℕ
  pairs : List PairConfig

/-- One level of an order book as returned by `fetchOrderBook`. -/
structure BookLevel where
  level : ℚ
deriving DecidableEq

/-- Order book snapshot returned by `fetchOrderBook`. -/
structure OrderBook where
  bids : List BookLevel
  asks : List BookLevel
deriving DecidableEq

/-- Outcome of one `submitLimitOrder` call. -/
inductive SubmitOutcome where
  | ok
  | failed (msg : String)
deriving DecidableEq

/-- Logger events produced through `logger.info` and `logger.error`. -/
inductive LogEvent where
  | info (msg : String)
  | error (msg : String)
deriving DecidableEq

/-- External collaborators of the strategy (`dexapi`, `dexrpc`): market lookup,
market data, the open orders of the account, and the submission outcome for
each order. These are the interfaces the core calls, not part of the core. -/
structure Env where
  markets : String → Option Market
  latestPrice : String → ℚ
  orderBook : String → OrderBook
  openOrders : List OpenOrder
  submitResult : LadderOrder → SubmitOutcome

/-- Embedding of `getMarketDetails` (source lines 13-28). The source reads
`dexapi.getMarketBySymbol` without checking for absence; absence is
represented by `none` (in the `trade` flow this case is unreachable because
`getOpenOrders` has already thrown for an unknown symbol). -/
def getMarketDetails (env : Env) (marketSymbol : String) : Option MarketDetails :=
  match env.markets marketSymbol with
  | none => none
  | some market =>
    let price := env.latestPrice marketSymbol
    let book := env.orderBook marketSymbol
    let lowestAsk := match book.asks with
      | [] => price
      | a :: _ => a.level
    let highestBid := match book.bids with
      | [] => price
      | b :: _ => b.level
    some { highestBid := highestBid, lowestAsk := lowestAsk, market := market, price := price }

/-- Embedding of `getOpenOrders` (source lines 30-40): throws when the symbol
resolves to no market, otherwise returns the account orders filtered to the
market. -/
def getOpenOrders (env : Env) (marketSymbol : String) : Except String (List OpenOrder) :=
  match env.markets marketSymbol with
  | none => Except.error ("Market " ++ marketSymbol ++ " does not exist")
  | some market =>
    Except.ok (env.openOrders.filter (fun o => o.market_id == market.market_id))

/-- Embedding of `getQuantityAndAdjustedTotal` (source lines 52-59). -/
def getQuantityAndAdjustedTotal (price totalCost : ℚ) (bidPrecision askPrecision : ℕ) :
    QuantityTotal :=
  let quantity := rdUp bidPrecision (bnDiv totalCost price)
  let adjustedTotal := rdUp askPrecision (price * quantity)
  { adjustedTotal := adjustedTotal, quantity := quantity }

/-- Embedding of `getGridInterval` (source lines 61-68): starts from 0.01 and
overwrites it with `gridInterval` of every pair whose symbol matches, in
configuration order. -/
def getGridInterval (pairs : List PairConfig) (marketSymbol : String) : ℚ :=
  pairs.foldl (fun interval p => if marketSymbol = p.symbol then p.gridInterval else interval)
    (1/100)

/-- Embedding of `getBase` (source lines 70-77): starts from AVERAGE and
overwrites it with `base` of every pair whose symbol matches, in
configuration order. -/
def getBase (pairs : List PairConfig) (marketSymbol : String) : String :=
  pairs.foldl (fun type p => if marketSymbol = p.symbol then p.base else type) ("AVERAGE")

/-- Semantics of the `switch (base) { case ... }` comparison in the source
(lines 93 and 141). The source wraps the base as `new String(getBase(..))`,
which produces a String object; a JavaScript `switch` compares with strict
equality `===`, and a String object is never strictly equal to a string
primitive, so no case label ever matches and control always reaches the
`default` branch. -/
def stringObjectStrictEq (_base _caseLabel : String) : Bool := false

/-- Embedding of the switch statement selecting `startPrice` in both
`createBuyOrder` (lines 86-106) and `createSellOrder` (lines 134-154); the two
blocks are textually identical in the source. -/
def selectStartPrice (base : String) (marketDetails : MarketDetails) : ℚ :=
  let lastSalePrice := marketDetails.price
  let lowestAsk := marketDetails.lowestAsk
  let highestBid := marketDetails.highestBid
  let avgPrice := bnDiv (lowestAsk + highestBid) 2
  if stringObjectStrictEq base ("BID") then highestBid
  else if stringObjectStrictEq base ("ASK") then lowestAsk
  else if stringObjectStrictEq base ("LAST") then lastSalePrice
  else avgPrice

/-- Modelled from the spec, section 4.2: the reference-price selection the
specification describes (`BID` to highestBid, `ASK` to lowestAsk, `LAST` to
lastPrice, anything else to the bid-ask average), for comparison with the
behaviour of the source. -/
def selectReference (base : String) (snapshot : MarketDetails) : ℚ :=
  if base = "BID" then snapshot.highestBid
  else if base = "ASK" then snapshot.lowestAsk
  else if base = "LAST" then snapshot.price
  else (snapshot.highestBid + snapshot.lowestAsk) / 2

/-- Semantics of `Math.max(startPrice)` in `createSellOrder` (line 157):
`Math.max` of a single value returns that value; the number coercion it
performs is modelled as exact. -/
def mathMax1 (x : ℚ) : ℚ := x

/-- Embedding of `createBuyOrder` (source lines 79-125). -/
def createBuyOrder (cfg : MMConfig) (marketSymbol : String) (marketDetails : MarketDetails)
    (index : ℕ) : LadderOrder :=
  let market := marketDetails.market
  let askPrecision := market.ask_token.precision
  let bidPrecision := market.bid_token.precision
  let bigMinSpread := getGridInterval cfg.pairs marketSymbol
  let minOrder := market.order_min / market.ask_token.multiplier
  let base := getBase cfg.pairs marketSymbol
  let startPrice := selectStartPrice base marketDetails
  let buyPrice := rdDown askPrecision ((bigMinSpread * (0 - ((index : ℚ) + 1)) + 1) * startPrice)
  let qt := getQuantityAndAdjustedTotal buyPrice minOrder bidPrecision askPrecision
  { orderSide := OrderSide.BUY, price := buyPrice, quantity := qt.adjustedTotal,
    marketSymbol := marketSymbol }

/-- Embedding of `createSellOrder` (source lines 127-173). -/
def createSellOrder (cfg : MMConfig) (marketSymbol : String) (marketDetails : MarketDetails)
    (index : ℕ) : LadderOrder :=
  let market := marketDetails.market
  let askPrecision := market.ask_token.precision
  let bidPrecision := market.bid_token.precision
  let bigMinSpread := getGridInterval cfg.pairs marketSymbol
  let minOrder := market.order_min / market.ask_token.multiplier
  let base := getBase cfg.pairs marketSymbol
  let startPrice := selectStartPrice base marketDetails
  let sellPrice :=
    rdUp askPrecision ((bigMinSpread * (0 + ((index : ℚ) + 1)) + 1) * mathMax1 startPrice)
  let qt := getQuantityAndAdjustedTotal sellPrice minOrder bidPrecision askPrecision
  { orderSide := OrderSide.SELL, price := sellPrice, quantity := qt.quantity,
    marketSymbol := marketSymbol }

/-- Count of open buy orders (source line 178). -/
def numBuyOrders (openOrders : List OpenOrder) : ℕ :=
  (openOrders.filter (fun o => o.order_side == OrderSide.BUY)).length

/-- Count of open sell orders (source line 179). -/
def numSellOrders (openOrders : List OpenOrder) : ℕ :=
  (openOrders.filter (fun o => o.order_side == OrderSide.SELL)).length

/-- Loop body of `prepareOrders` (source lines 181-193): one recursive step per
loop iteration, `fuel` counting the remaining iterations and `index` the
current loop index. -/
def prepareOrdersGo (cfg : MMConfig) (marketSymbol : String) (marketDetails : MarketDetails) :
    ℕ → ℕ → ℕ → ℕ → List LadderOrder
  | 0, _, _, _ => []
  | fuel + 1, index, numBuys, numSells =>
    (if numBuys < cfg.gridLevels then [createBuyOrder cfg marketSymbol marketDetails index]
      else [])
    ++ (if numSells < cfg.gridLevels then [createSellOrder cfg marketSymbol marketDetails index]
      else [])
    ++ prepareOrdersGo cfg marketSymbol marketDetails fuel (index + 1)
        (if numBuys < cfg.gridLevels then numBuys + 1 else numBuys)
        (if numSells < cfg.gridLevels then numSells + 1 else numSells)

/-- Embedding of `prepareOrders` (source lines 176-196). -/
def prepareOrders (cfg : MMConfig) (marketSymbol : String) (marketDetails : MarketDetails)
    (openOrders : List OpenOrder) : List LadderOrder :=
  prepareOrdersGo cfg marketSymbol marketDetails cfg.gridLevels 0
    (numBuyOrders openOrders) (numSellOrders openOrders)

/-- Embedding of `placeOrders` (source lines 198-203): every order is submitted
with `forEach` on an async callback, so each submission is fired without the
caller awaiting it; the outcomes are produced but never observed by `trade`. -/
def placeOrders (env : Env) (orders : List LadderOrder) : List SubmitOutcome :=
  orders.map env.submitResult

/-- Buy orders of a prepared batch. -/
def ordersBuys (orders : List LadderOrder) : List LadderOrder :=
  orders.filter (fun o => o.orderSide == OrderSide.BUY)

/-- Sell orders of a prepared batch. -/
def ordersSells (orders : List LadderOrder) : List LadderOrder :=
  orders.filter (fun o => o.orderSide == OrderSide.SELL)

/-- Embedding of the per-pair loop of `trade` (source lines 211-234). The
result is the log produced through the logger together with the outcomes of
every fired submission (which the source drops without awaiting: a rejected
submission is invisible to the try/catch boundary and to the log). The
`return` on line 224 exits the whole function, which is modelled by dropping
the remaining pairs; errors thrown inside the try block are caught, logged,
and the loop continues with the next pair. -/
def tradeGo (cfg : MMConfig) (env : Env) : List PairConfig → List LogEvent × List SubmitOutcome
  | [] => ([], [])
  | p :: rest =>
    let execMsg := LogEvent.info
      ("Executing " ++ p.symbol ++ " market maker trades on account " ++ cfg.username)
    match getOpenOrders env p.symbol with
    | Except.error msg =>
      let r := tradeGo cfg env rest
      (execMsg :: LogEvent.error msg :: r.1, r.2)
    | Except.ok openOrders =>
      let buys := openOrders.filter (fun o => o.order_side == OrderSide.BUY)
      let sells := openOrders.filter (fun o => o.order_side == OrderSide.SELL)
      if cfg.gridLevels ≤ buys.length ∧ cfg.gridLevels ≤ sells.length then
        ([execMsg,
          LogEvent.info ("nothing to do - we have enough orders on the books for " ++ p.symbol)],
         [])
      else
        match getMarketDetails env p.symbol with
        | none =>
          let r := tradeGo cfg env rest
          (execMsg :: LogEvent.error ("TypeError") :: r.1, r.2)
        | some marketDetails =>
          let preparedOrders := prepareOrders cfg p.symbol marketDetails openOrders
          let outcomes := placeOrders env preparedOrders
          let r := tradeGo cfg env rest
          (execMsg :: r.1, outcomes ++ r.2)

/-- Embedding of `trade` (source lines 211-234). -/
def trade (cfg : MMConfig) (env : Env) : List LogEvent × List SubmitOutcome :=
  tradeGo cfg env cfg.pairs

/-- Sample token with two decimal places. -/
def tokenP2 : Token := { precision := 2, multiplier := 100 }

/-- Sample market with id 1. -/
def marketA : Market :=
  { market_id := 1
    bid_token := tokenP2
    ask_token := tokenP2
    order_min := 100 }

/-- Sample market with id 2. -/
def marketB : Market :=
  { market_id := 2
    bid_token := tokenP2
    ask_token := tokenP2
    order_min := 100 }

/-- Sample market with id 3. -/
def marketC : Market :=
  { market_id := 3
    bid_token := tokenP2
    ask_token := tokenP2
    order_min := 100 }

/-- Configuration with one pair whose base is BID. -/
def cfgBid : MMConfig :=
  { username := "bot"
    gridLevels := 2
    pairs := [{ symbol := "A", gridInterval := 1/100, base := "BID" }] }

/-- Market snapshot with highest bid 100, lowest ask 102 and last price 101. -/
def mdBid : MarketDetails :=
  { highestBid := 100
    lowestAsk := 102
    market := marketA
    price := 101 }

/-- Configuration with two pairs A and B, one grid level each. -/
def cfgTwoPairs : MMConfig :=
  { username := "bot"
    gridLevels := 1
    pairs := [{ symbol := "A", gridInterval := 1/100, base := "BID" },
              { symbol := "B", gridInterval := 1/100, base := "BID" }] }

/-- Environment in which pair A already has one resting buy and one resting
sell order, so its order counts meet `gridLevels`. -/
def envSaturatedA : Env :=
  { markets := fun s => if s = "A" then some marketA else if s = "B" then some marketB else none
    latestPrice := fun _ => 100
    orderBook := fun _ => { bids := [], asks := [] }
    openOrders := [{ order_side := OrderSide.BUY, market_id := 1 },
                   { order_side := OrderSide.SELL, market_id := 1 }]
    submitResult := fun _ => SubmitOutcome.ok }

/-- Configuration with three pairs X, Y and Z, one grid level each. -/
def cfgThreePairs : MMConfig :=
  { username := "bot"
    gridLevels := 1
    pairs := [{ symbol := "X", gridInterval := 1/100, base := "LAST" },
              { symbol := "Y", gridInterval := 1/100, base := "LAST" },
              { symbol := "Z", gridInterval := 1/100, base := "LAST" }] }

/-- Environment in which the symbol X matches no market, the account has no
open orders, and the venue rejects every submitted order. -/
def envMissingX : Env :=
  { markets := fun s => if s = "Y" then some marketB else if s = "Z" then some marketC else none
    latestPrice := fun _ => 100
    orderBook := fun _ => { bids := [], asks := [] }
    openOrders := []
    submitResult := fun _ => SubmitOutcome.failed ("order rejected by venue") }

/-- Configuration with a pair whose grid interval is so small that adjacent
ladder levels collide after rounding to the ask-token precision. -/
def cfgTinyInterval : MMConfig :=
  { username := "bot"
    gridLevels := 2
    pairs := [{ symbol := "A", gridInterval := 1/10000000000, base := "LAST" }] }

/-- Market snapshot in which bid, ask and last price all equal 100. -/
def mdFlat : MarketDetails :=
  { highestBid := 100
    lowestAsk := 100
    market := marketA
    price := 100 }

/-- Configuration with three grid levels and no configured pairs. -/
def cfgGrid3 : MMConfig := { username := "bot", gridLevels := 3, pairs := [] }

/-- Sample pair for symbol P with grid interval 0.01. -/
def pairP1 : PairConfig := { symbol := "P", gridInterval := 1/100, base := "BID" }

/-- Sample pair for symbol P with grid interval 0.03. -/
def pairP3 : PairConfig := { symbol := "P", gridInterval := 3/100, base := "ASK" }

/-- Sample pair for symbol Q. -/
def pairQ : PairConfig := { symbol := "Q", gridInterval := 5/100, base := "LAST" }

theorem qfloor_eq (q : ℚ) : qfloor q = ⌊q⌋ := by
  rw [Rat.floor_def, qfloor]
  exact Int.fdiv_eq_ediv _ (by positivity)

theorem qceil_eq (q : ℚ) : qceil q = ⌈q⌉ := by
  rw [qceil, qfloor_eq, Int.floor_neg, neg_neg]

theorem rdDown_eval (dp : ℕ) (q : ℚ) (n : ℤ)
    (hq : 0 ≤ q) (h1 : (n : ℚ) ≤ q * 10 ^ dp) (h2 : q * 10 ^ dp < n + 1) :
    rdDown dp q = n / 10 ^ dp := by
  rw [rdDown, if_pos hq, qfloor_eq, Int.floor_eq_iff.mpr ⟨h1, h2⟩]

theorem rdUp_eval (dp : ℕ) (q : ℚ) (n : ℤ)
    (hq : 0 ≤ q) (h1 : (n : ℚ) - 1 < q * 10 ^ dp) (h2 : q * 10 ^ dp ≤ n) :
    rdUp dp q = n / 10 ^ dp := by
  rw [rdUp, if_pos hq, qceil_eq, Int.ceil_eq_iff.mpr ⟨h1, h2⟩]

theorem rdHalfUp_eval (dp : ℕ) (q : ℚ) (n : ℤ)
    (hq : 0 ≤ q) (h1 : (n : ℚ) ≤ q * 10 ^ dp + 1/2) (h2 : q * 10 ^ dp + 1/2 < n + 1) :
    rdHalfUp dp q = n / 10 ^ dp := by
  rw [rdHalfUp, if_pos hq, qfloor_eq, Int.floor_eq_iff.mpr ⟨h1, h2⟩]

theorem bnDiv_eval (x y : ℚ) (n : ℤ)
    (hq : 0 ≤ x / y) (h1 : (n : ℚ) ≤ x / y * 10 ^ 20 + 1/2)
    (h2 : x / y * 10 ^ 20 + 1/2 < n + 1) :
    bnDiv x y = n / 10 ^ 20 := by
  rw [bnDiv, rdHalfUp_eval 20 _ n hq h1 h2]

theorem rdDown_le_of_nonneg (dp : ℕ) (q : ℚ) (hq : 0 ≤ q) : rdDown dp q ≤ q := by
  have hs : (0:ℚ) < 10 ^ dp := by positivity
  rw [rdDown, if_pos hq, qfloor_eq, div_le_iff₀ hs]
  exact Int.floor_le _

theorem rdDown_nonpos (dp : ℕ) (q : ℚ) (hq : q < 0) : rdDown dp q ≤ 0 := by
  have hs : (0:ℚ) < 10 ^ dp := by positivity
  rw [rdDown, if_neg (by linarith)]
  have h0 : (0:ℤ) ≤ ⌊-q * 10 ^ dp⌋ := Int.floor_nonneg.mpr (by nlinarith)
  have : (0:ℚ) ≤ (⌊-q * 10 ^ dp⌋ : ℚ) / 10 ^ dp := by
    apply div_nonneg _ hs.le
    exact_mod_cast h0
  rw [qfloor_eq]
  linarith

theorem le_rdUp_of_nonneg (dp : ℕ) (q : ℚ) (hq : 0 ≤ q) : q ≤ rdUp dp q := by
  have hs : (0:ℚ) < 10 ^ dp := by positivity
  rw [rdUp, if_pos hq, qceil_eq, le_div_iff₀ hs]
  exact Int.le_ceil _

theorem rdDown_mono (dp : ℕ) {a b : ℚ} (h : a ≤ b) : rdDown dp a ≤ rdDown dp b := by
  have hs : (0:ℚ) < 10 ^ dp := by positivity
  by_cases ha : 0 ≤ a
  · have hb : 0 ≤ b := le_trans ha h
    rw [rdDown, if_pos ha, rdDown, if_pos hb, qfloor_eq, qfloor_eq]
    have hf : ⌊a * 10 ^ dp⌋ ≤ ⌊b * 10 ^ dp⌋ :=
      Int.floor_mono (mul_le_mul_of_nonneg_right h hs.le)
    exact div_le_div_of_nonneg_right (by exact_mod_cast hf) hs.le
  · by_cases hb : 0 ≤ b
    · have h1 : rdDown dp a ≤ 0 := rdDown_nonpos dp a (lt_of_not_le ha)
      have h2 : (0:ℚ) ≤ rdDown dp b := by
        rw [rdDown, if_pos hb, qfloor_eq]
        apply div_nonneg _ hs.le
        exact_mod_cast Int.floor_nonneg.mpr (by positivity)
      linarith
    · rw [rdDown, if_neg ha, rdDown, if_neg hb, qfloor_eq, qfloor_eq]
      have hf : ⌊-b * 10 ^ dp⌋ ≤ ⌊-a * 10 ^ dp⌋ :=
        Int.floor_mono (by nlinarith)
      have := div_le_div_of_nonneg_right (show ((⌊-b * 10 ^ dp⌋ : ℚ)) ≤ (⌊-a * 10 ^ dp⌋ : ℚ) by
        exact_mod_cast hf) hs.le
      linarith

theorem rdUp_nonneg (dp : ℕ) (q : ℚ) (hq : 0 ≤ q) : 0 ≤ rdUp dp q := by
  have hs : (0:ℚ) < 10 ^ dp := by positivity
  rw [rdUp, if_pos hq, qceil_eq]
  apply div_nonneg _ hs.le
  exact_mod_cast Int.ceil_nonneg (by positivity)

theorem rdUp_mono (dp : ℕ) {a b : ℚ} (h : a ≤ b) : rdUp dp a ≤ rdUp dp b := by
  have hs : (0:ℚ) < 10 ^ dp := by positivity
  by_cases ha : 0 ≤ a
  · have hb : 0 ≤ b := le_trans ha h
    rw [rdUp, if_pos ha, rdUp, if_pos hb, qceil_eq, qceil_eq]
    have hf : ⌈a * 10 ^ dp⌉ ≤ ⌈b * 10 ^ dp⌉ :=
      Int.ceil_mono (mul_le_mul_of_nonneg_right h hs.le)
    exact div_le_div_of_nonneg_right (by exact_mod_cast hf) hs.le
  · by_cases hb : 0 ≤ b
    · have h1 : rdUp dp a ≤ 0 := by
        rw [rdUp, if_neg ha, qceil_eq]
        have h0 : (0:ℤ) ≤ ⌈-a * 10 ^ dp⌉ := Int.ceil_nonneg (by nlinarith [lt_of_not_le ha])
        have : (0:ℚ) ≤ (⌈-a * 10 ^ dp⌉ : ℚ) / 10 ^ dp := by
          apply div_nonneg _ hs.le
          exact_mod_cast h0
        linarith
      linarith [rdUp_nonneg dp b hb]
    · rw [rdUp, if_neg ha, rdUp, if_neg hb, qceil_eq, qceil_eq]
      have hf : ⌈-b * 10 ^ dp⌉ ≤ ⌈-a * 10 ^ dp⌉ :=
        Int.ceil_mono (by nlinarith)
      have := div_le_div_of_nonneg_right (show ((⌈-b * 10 ^ dp⌉ : ℚ)) ≤ (⌈-a * 10 ^ dp⌉ : ℚ) by
        exact_mod_cast hf) hs.le
      linarith

theorem createBuyOrder_orderSide (cfg : MMConfig) (sym : String) (md : MarketDetails) (i : ℕ) :
    (createBuyOrder cfg sym md i).orderSide = OrderSide.BUY := rfl

theorem createSellOrder_orderSide (cfg : MMConfig) (sym : String) (md : MarketDetails) (i : ℕ) :
    (createSellOrder cfg sym md i).orderSide = OrderSide.SELL := rfl

theorem createBuyOrder_price_eq (cfg : MMConfig) (sym : String) (md : MarketDetails) (i : ℕ) :
    (createBuyOrder cfg sym md i).price =
      rdDown md.market.ask_token.precision
        (selectStartPrice (getBase cfg.pairs sym) md *
          (1 - getGridInterval cfg.pairs sym * ((i : ℚ) + 1))) := by
  simp only [createBuyOrder]
  congr 1
  ring

theorem createSellOrder_price_eq (cfg : MMConfig) (sym : String) (md : MarketDetails) (i : ℕ) :
    (createSellOrder cfg sym md i).price =
      rdUp md.market.ask_token.precision
        (selectStartPrice (getBase cfg.pairs sym) md *
          (1 + getGridInterval cfg.pairs sym * ((i : ℚ) + 1))) := by
  simp only [createSellOrder, mathMax1]
  congr 1
  ring

theorem ordersBuys_go (cfg : MMConfig) (sym : String) (md : MarketDetails) (fuel : ℕ) :
    ∀ (index numBuys numSells : ℕ), cfg.gridLevels - numBuys ≤ fuel →
    ordersBuys (prepareOrdersGo cfg sym md fuel index numBuys numSells)
      = (List.range (cfg.gridLevels - numBuys)).map
          (fun k => createBuyOrder cfg sym md (index + k)) := by
  induction fuel with
  | zero =>
    intro index nb ns h
    rw [Nat.le_zero.mp h]
    simp [ordersBuys, prepareOrdersGo]
  | succ fuel ih =>
    intro index nb ns h
    rw [prepareOrdersGo]
    by_cases hb : nb < cfg.gridLevels
    · rw [if_pos hb, if_pos hb]
      have hrec := ih (index + 1) (nb + 1) (if ns < cfg.gridLevels then ns + 1 else ns)
        (by omega)
      have hm : cfg.gridLevels - nb = (cfg.gridLevels - (nb + 1)) + 1 := by omega
      rw [hm, List.range_succ_eq_map]
      simp only [ordersBuys, List.filter_append, List.map_cons, List.map_map]
      rw [ordersBuys] at hrec
      rw [hrec]
      have hsell :
          List.filter (fun o => o.orderSide == OrderSide.BUY)
            (if ns < cfg.gridLevels then [createSellOrder cfg sym md index] else []) = [] := by
        by_cases hs : ns < cfg.gridLevels
        · rw [if_pos hs]
          simp [createSellOrder_orderSide]
        · rw [if_neg hs]
          rfl
      rw [hsell]
      simp only [List.filter_cons, createBuyOrder_orderSide, List.filter_nil, beq_self_eq_true,
        if_true, List.singleton_append, List.nil_append, List.append_nil, List.cons_append]
      congr 1
      apply List.map_congr_left
      intro k hk
      congr 1
      omega
    · rw [if_neg hb, if_neg hb]
      have h0 : cfg.gridLevels - nb = 0 := by omega
      rw [h0]
      have hrec := ih (index + 1) nb (if ns < cfg.gridLevels then ns + 1 else ns) (by omega)
      rw [h0] at hrec
      simp only [ordersBuys, List.filter_append, List.nil_append]
      rw [ordersBuys] at hrec
      rw [hrec]
      have hsell :
          List.filter (fun o => o.orderSide == OrderSide.BUY)
            (if ns < cfg.gridLevels then [createSellOrder cfg sym md index] else []) = [] := by
        by_cases hs : ns < cfg.gridLevels
        · rw [if_pos hs]
          simp [createSellOrder_orderSide]
        · rw [if_neg hs]
          rfl
      rw [hsell]
      simp

theorem ordersSells_go (cfg : MMConfig) (sym : String) (md : MarketDetails) (fuel : ℕ) :
    ∀ (index numBuys numSells : ℕ), cfg.gridLevels - numSells ≤ fuel →
    ordersSells (prepareOrdersGo cfg sym md fuel index numBuys numSells)
      = (List.range (cfg.gridLevels - numSells)).map
          (fun k => createSellOrder cfg sym md (index + k)) := by
  induction fuel with
  | zero =>
    intro index nb ns h
    rw [Nat.le_zero.mp h]
    simp [ordersSells, prepareOrdersGo]
  | succ fuel ih =>
    intro index nb ns h
    rw [prepareOrdersGo]
    have hbuy :
        List.filter (fun o => o.orderSide == OrderSide.SELL)
          (if nb < cfg.gridLevels then [createBuyOrder cfg sym md index] else []) = [] := by
      by_cases hbc : nb < cfg.gridLevels
      · rw [if_pos hbc]
        simp [createBuyOrder_orderSide]
      · rw [if_neg hbc]
        rfl
    by_cases hs : ns < cfg.gridLevels
    · rw [if_pos hs, if_pos hs]
      have hrec := ih (index + 1) (if nb < cfg.gridLevels then nb + 1 else nb) (ns + 1)
        (by omega)
      have hm : cfg.gridLevels - ns = (cfg.gridLevels - (ns + 1)) + 1 := by omega
      rw [hm, List.range_succ_eq_map]
      simp only [ordersSells, List.filter_append, List.map_cons, List.map_map]
      rw [ordersSells] at hrec
      rw [hrec, hbuy]
      simp only [List.filter_cons, createSellOrder_orderSide, List.filter_nil, beq_self_eq_true,
        if_true, List.singleton_append, List.nil_append, List.append_nil, List.cons_append]
      congr 1
      apply List.map_congr_left
      intro k hk
      congr 1
      omega
    · rw [if_neg hs, if_neg hs]
      have h0 : cfg.gridLevels - ns = 0 := by omega
      rw [h0]
      have hrec := ih (index + 1) (if nb < cfg.gridLevels then nb + 1 else nb) ns (by omega)
      rw [h0] at hrec
      simp only [ordersSells, List.filter_append]
      rw [ordersSells] at hrec
      rw [hrec, hbuy]
      simp

theorem prepareOrdersGo_saturated (cfg : MMConfig) (sym : String) (md : MarketDetails)
    (fuel : ℕ) :
    ∀ (index numBuys numSells : ℕ), cfg.gridLevels ≤ numBuys → cfg.gridLevels ≤ numSells →
    prepareOrdersGo cfg sym md fuel index numBuys numSells = [] := by
  induction fuel with
  | zero =>
    intro index nb ns _ _
    rfl
  | succ fuel ih =>
    intro index nb ns hb hs
    rw [prepareOrdersGo, if_neg (by omega), if_neg (by omega), if_neg (by omega),
      if_neg (by omega)]
    simpa using ih (index + 1) nb ns hb hs

theorem foldl_override_of_no_match {α : Type} (f : PairConfig → α) (sym : String) :
    ∀ (l : List PairConfig) (a : α), (∀ q ∈ l, q.symbol ≠ sym) →
    l.foldl (fun acc p => if sym = p.symbol then f p else acc) a = a := by
  intro l
  induction l with
  | nil =>
    intro a _
    rfl
  | cons p t ih =>
    intro a h
    rw [List.foldl_cons, if_neg (fun hEq => (h p (by simp)) hEq.symm)]
    exact ih a (fun q hq => h q (by simp [hq]))

theorem foldl_override_last {α : Type} (f : PairConfig → α) (sym : String)
    (ps qs : List PairConfig) (p : PairConfig) (a : α) (hp : p.symbol = sym)
    (hqs : ∀ q ∈ qs, q.symbol ≠ sym) :
    (ps ++ p :: qs).foldl (fun acc x => if sym = x.symbol then f x else acc) a = f p := by
  rw [List.foldl_append, List.foldl_cons, if_pos hp.symm]
  exact foldl_override_of_no_match f sym qs (f p) hqs

/-- C4: for every configuration, snapshot and ladder index, the buy price
produced by `createBuyOrder` equals the reference price selected by the code
multiplied by `(1 - interval * (index + 1))`, rounded towards zero
(`ROUND_DOWN`) to the ask-token decimal precision. -/
theorem buy_price_formula (cfg : MMConfig) (sym : String) (md : MarketDetails) (index : ℕ) :
    (createBuyOrder cfg sym md index).price =
      rdDown md.market.ask_token.precision
        (selectStartPrice (getBase cfg.pairs sym) md *
          (1 - getGridInterval cfg.pairs sym * ((index : ℚ) + 1))) :=
  createBuyOrder_price_eq cfg sym md index

/-- C5: for every configuration, snapshot and ladder index, the sell price
produced by `createSellOrder` equals the reference price selected by the code
multiplied by `(1 + interval * (index + 1))`, rounded away from zero
(`ROUND_UP`) to the ask-token decimal precision; the computation is the exact
decimal (rational) formula, with no floating-point term in the model. -/
theorem sell_price_formula (cfg : MMConfig) (sym : String) (md : MarketDetails) (index : ℕ) :
    (createSellOrder cfg sym md index).price =
      rdUp md.market.ask_token.precision
        (selectStartPrice (getBase cfg.pairs sym) md *
          (1 + getGridInterval cfg.pairs sym * ((index : ℚ) + 1))) :=
  createSellOrder_price_eq cfg sym md index

/-- C9: for every built ladder order, the submitted size of a buy order is the
`adjustedTotal` returned by `getQuantityAndAdjustedTotal` at the buy price and
the minimum order cost, while the submitted size of a sell order is the
`quantity` it returns. -/
theorem order_size_asymmetry (cfg : MMConfig) (sym : String) (md : MarketDetails) (index : ℕ) :
    (createBuyOrder cfg sym md index).quantity =
      (getQuantityAndAdjustedTotal (createBuyOrder cfg sym md index).price
        (md.market.order_min / md.market.ask_token.multiplier)
        md.market.bid_token.precision md.market.ask_token.precision).adjustedTotal
    ∧ (createSellOrder cfg sym md index).quantity =
      (getQuantityAndAdjustedTotal (createSellOrder cfg sym md index).price
        (md.market.order_min / md.market.ask_token.multiplier)
        md.market.bid_token.precision md.market.ask_token.precision).quantity :=
  ⟨rfl, rfl⟩

/-- C3: for every list of open orders and every `gridLevels` of at least 1,
the reconciler emits exactly `gridLevels - openBuyCount` buy orders (truncated
at zero) and `gridLevels - openSellCount` sell orders, at consecutive ladder
indices starting from 0; it returns the empty list when both counts already
equal `gridLevels`, never emits more than `gridLevels` orders per side, and
with no open orders and `gridLevels = 3` it emits exactly three buys and three
sells at indices 0, 1, 2. -/
theorem prepareOrders_reconciliation (cfg : MMConfig) (sym : String) (md : MarketDetails)
    (openOrders : List OpenOrder) (hg : 1 ≤ cfg.gridLevels) :
    ordersBuys (prepareOrders cfg sym md openOrders)
        = (List.range (cfg.gridLevels - numBuyOrders openOrders)).map (createBuyOrder cfg sym md)
    ∧ ordersSells (prepareOrders cfg sym md openOrders)
        = (List.range (cfg.gridLevels - numSellOrders openOrders)).map
            (createSellOrder cfg sym md)
    ∧ (ordersBuys (prepareOrders cfg sym md openOrders)).length
        = cfg.gridLevels - numBuyOrders openOrders
    ∧ (ordersSells (prepareOrders cfg sym md openOrders)).length
        = cfg.gridLevels - numSellOrders openOrders
    ∧ (numBuyOrders openOrders = cfg.gridLevels → numSellOrders openOrders = cfg.gridLevels →
        prepareOrders cfg sym md openOrders = [])
    ∧ (ordersBuys (prepareOrders cfg sym md openOrders)).length ≤ cfg.gridLevels
    ∧ (ordersSells (prepareOrders cfg sym md openOrders)).length ≤ cfg.gridLevels
    ∧ (openOrders = [] → cfg.gridLevels = 3 →
        ordersBuys (prepareOrders cfg sym md openOrders)
          = [createBuyOrder cfg sym md 0, createBuyOrder cfg sym md 1,
             createBuyOrder cfg sym md 2]
        ∧ ordersSells (prepareOrders cfg sym md openOrders)
          = [createSellOrder cfg sym md 0, createSellOrder cfg sym md 1,
             createSellOrder cfg sym md 2]) := by
  have hbuys : ordersBuys (prepareOrders cfg sym md openOrders)
      = (List.range (cfg.gridLevels - numBuyOrders openOrders)).map
          (createBuyOrder cfg sym md) := by
    rw [prepareOrders,
      ordersBuys_go cfg sym md cfg.gridLevels 0 (numBuyOrders openOrders)
        (numSellOrders openOrders) (by omega)]
    apply List.map_congr_left
    intro k hk
    rw [Nat.zero_add]
  have hsells : ordersSells (prepareOrders cfg sym md openOrders)
      = (List.range (cfg.gridLevels - numSellOrders openOrders)).map
          (createSellOrder cfg sym md) := by
    rw [prepareOrders,
      ordersSells_go cfg sym md cfg.gridLevels 0 (numBuyOrders openOrders)
        (numSellOrders openOrders) (by omega)]
    apply List.map_congr_left
    intro k hk
    rw [Nat.zero_add]
  have hblen : (ordersBuys (prepareOrders cfg sym md openOrders)).length
      = cfg.gridLevels - numBuyOrders openOrders := by
    rw [hbuys, List.length_map, List.length_range]
  have hslen : (ordersSells (prepareOrders cfg sym md openOrders)).length
      = cfg.gridLevels - numSellOrders openOrders := by
    rw [hsells, List.length_map, List.length_range]
  refine ⟨hbuys, hsells, hblen, hslen, ?_, ?_, ?_, ?_⟩
  · intro h1 h2
    rw [prepareOrders, h1, h2]
    exact prepareOrdersGo_saturated cfg sym md cfg.gridLevels 0 cfg.gridLevels cfg.gridLevels
      (le_refl _) (le_refl _)
  · rw [hblen]
    omega
  · rw [hslen]
    omega
  · intro h0 h3
    subst h0
    constructor
    · rw [hbuys]
      have : numBuyOrders ([] : List OpenOrder) = 0 := rfl
      rw [this, h3]
      rfl
    · rw [hsells]
      have : numSellOrders ([] : List OpenOrder) = 0 := rfl
      rw [this, h3]
      rfl

/-- Witness for C3 at a concrete configuration: three grid levels and no open
orders. -/
theorem prepareOrders_reconciliation_witness :
    1 ≤ cfgGrid3.gridLevels
    ∧ (ordersBuys (prepareOrders cfgGrid3 ("A") mdBid [])
        = (List.range (cfgGrid3.gridLevels - numBuyOrders [])).map
            (createBuyOrder cfgGrid3 ("A") mdBid)
      ∧ ordersSells (prepareOrders cfgGrid3 ("A") mdBid [])
        = (List.range (cfgGrid3.gridLevels - numSellOrders [])).map
            (createSellOrder cfgGrid3 ("A") mdBid)
      ∧ (ordersBuys (prepareOrders cfgGrid3 ("A") mdBid [])).length
        = cfgGrid3.gridLevels - numBuyOrders []
      ∧ (ordersSells (prepareOrders cfgGrid3 ("A") mdBid [])).length
        = cfgGrid3.gridLevels - numSellOrders []
      ∧ (numBuyOrders [] = cfgGrid3.gridLevels → numSellOrders [] = cfgGrid3.gridLevels →
          prepareOrders cfgGrid3 ("A") mdBid [] = [])
      ∧ (ordersBuys (prepareOrders cfgGrid3 ("A") mdBid [])).length ≤ cfgGrid3.gridLevels
      ∧ (ordersSells (prepareOrders cfgGrid3 ("A") mdBid [])).length ≤ cfgGrid3.gridLevels
      ∧ (([] : List OpenOrder) = [] → cfgGrid3.gridLevels = 3 →
          ordersBuys (prepareOrders cfgGrid3 ("A") mdBid [])
            = [createBuyOrder cfgGrid3 ("A") mdBid 0, createBuyOrder cfgGrid3 ("A") mdBid 1,
               createBuyOrder cfgGrid3 ("A") mdBid 2]
          ∧ ordersSells (prepareOrders cfgGrid3 ("A") mdBid [])
            = [createSellOrder cfgGrid3 ("A") mdBid 0, createSellOrder cfgGrid3 ("A") mdBid 1,
               createSellOrder cfgGrid3 ("A") mdBid 2])) :=
  ⟨by decide, prepareOrders_reconciliation cfgGrid3 ("A") mdBid [] (by decide)⟩

/-- C10: for every market symbol matching no configured pair, order
construction falls back to a grid interval of 0.01 and base AVERAGE; when
several configured pairs share the same symbol, the values of the last
matching pair in configuration order win. -/
theorem config_lookup_default_and_last (pairs ps qs : List PairConfig) (p : PairConfig)
    (sym : String) (hnone : ∀ q ∈ pairs, q.symbol ≠ sym) (hp : p.symbol = sym)
    (hqs : ∀ q ∈ qs, q.symbol ≠ sym) :
    (getGridInterval pairs sym = 1/100 ∧ getBase pairs sym = "AVERAGE")
    ∧ (getGridInterval (ps ++ p :: qs) sym = p.gridInterval
      ∧ getBase (ps ++ p :: qs) sym = p.base) := by
  refine ⟨⟨?_, ?_⟩, ?_, ?_⟩
  · exact foldl_override_of_no_match (fun x => x.gridInterval) sym pairs (1/100) hnone
  · exact foldl_override_of_no_match (fun x => x.base) sym pairs ("AVERAGE") hnone
  · exact foldl_override_last (fun x => x.gridInterval) sym ps qs p (1/100) hp hqs
  · exact foldl_override_last (fun x => x.base) sym ps qs p ("AVERAGE") hp hqs

/-- Witness for C10 at concrete pair lists: symbol P is absent from the first
list, and is configured twice in the second list where the later entry wins. -/
theorem config_lookup_default_and_last_witness :
    (∀ q ∈ [pairQ], q.symbol ≠ "P")
    ∧ pairP3.symbol = "P"
    ∧ (∀ q ∈ [pairQ], q.symbol ≠ "P")
    ∧ ((getGridInterval [pairQ] ("P") = 1/100 ∧ getBase [pairQ] ("P") = "AVERAGE")
      ∧ (getGridInterval ([pairP1] ++ pairP3 :: [pairQ]) ("P") = pairP3.gridInterval
        ∧ getBase ([pairP1] ++ pairP3 :: [pairQ]) ("P") = pairP3.base)) :=
  ⟨by decide, by decide, by decide,
    config_lookup_default_and_last [pairQ] [pairP1] [pairQ] pairP3 ("P")
      (by decide) (by decide) (by decide)⟩

theorem rdUp_zero (dp : ℕ) : rdUp dp 0 = 0 := by
  rw [rdUp_eval dp 0 0 (le_refl 0) (by norm_num) (by norm_num)]
  norm_num

theorem rdUp_den (dp : ℕ) (q : ℚ) : ∃ n : ℤ, rdUp dp q = (n : ℚ) / 10 ^ dp := by
  rw [rdUp]
  by_cases h : 0 ≤ q
  · rw [if_pos h]
    exact ⟨qceil (q * 10 ^ dp), rfl⟩
  · rw [if_neg h]
    refine ⟨-qceil (-q * 10 ^ dp), ?_⟩
    push_cast
    ring

theorem selectStartPrice_mdBid (base : String) : selectStartPrice base mdBid = 101 := by
  show bnDiv ((102 : ℚ) + 100) 2 = 101
  rw [bnDiv_eval _ _ (101 * 10 ^ 20) (by norm_num) (by norm_num) (by norm_num)]
  norm_num

theorem selectStartPrice_mdFlat (base : String) : selectStartPrice base mdFlat = 100 := by
  show bnDiv ((100 : ℚ) + 100) 2 = 100
  rw [bnDiv_eval _ _ (100 * 10 ^ 20) (by norm_num) (by norm_num) (by norm_num)]
  norm_num

theorem getGridInterval_cfgBid : getGridInterval cfgBid.pairs ("A") = 1/100 := rfl

theorem getGridInterval_cfgTiny : getGridInterval cfgTinyInterval.pairs ("A") = 1/10000000000 :=
  rfl

/-- C6 (amended): for every positive price and positive target cost whose
exact quotient is unchanged by the 20-decimal-place rounding that
bignumber.js `dividedBy` applies, the returned quantity is `round_up` of the
quotient at the bid precision, the adjusted total is `round_up` of
`price * quantity` at the ask precision, the notional `price * quantity` and
the adjusted total are never below the target cost, and the adjusted total
has at most `askPrecision` decimal places. -/
theorem quantity_and_adjusted_total_spec (price totalCost : ℚ) (bidPrecision askPrecision : ℕ)
    (hp : 0 < price) (ht : 0 < totalCost)
    (hexact : bnDiv totalCost price = totalCost / price) :
    (getQuantityAndAdjustedTotal price totalCost bidPrecision askPrecision).quantity
        = rdUp bidPrecision (totalCost / price)
    ∧ (getQuantityAndAdjustedTotal price totalCost bidPrecision askPrecision).adjustedTotal
        = rdUp askPrecision
            (price *
              (getQuantityAndAdjustedTotal price totalCost bidPrecision askPrecision).quantity)
    ∧ totalCost ≤
        price * (getQuantityAndAdjustedTotal price totalCost bidPrecision askPrecision).quantity
    ∧ totalCost ≤
        (getQuantityAndAdjustedTotal price totalCost bidPrecision askPrecision).adjustedTotal
    ∧ ∃ n : ℤ,
        (getQuantityAndAdjustedTotal price totalCost bidPrecision askPrecision).adjustedTotal
          = (n : ℚ) / 10 ^ askPrecision := by
  have hq : (getQuantityAndAdjustedTotal price totalCost bidPrecision askPrecision).quantity
      = rdUp bidPrecision (totalCost / price) := by
    simp only [getQuantityAndAdjustedTotal]
    rw [hexact]
  have hadj_eq :
      (getQuantityAndAdjustedTotal price totalCost bidPrecision askPrecision).adjustedTotal
        = rdUp askPrecision
            (price *
              (getQuantityAndAdjustedTotal price totalCost bidPrecision askPrecision).quantity) :=
    rfl
  have hqpos : (0 : ℚ) ≤ totalCost / price := (div_pos ht hp).le
  have h1 : totalCost / price
      ≤ (getQuantityAndAdjustedTotal price totalCost bidPrecision askPrecision).quantity := by
    rw [hq]
    exact le_rdUp_of_nonneg _ _ hqpos
  have hnot : totalCost ≤
      price * (getQuantityAndAdjustedTotal price totalCost bidPrecision askPrecision).quantity := by
    calc totalCost = price * (totalCost / price) := by field_simp
    _ ≤ price * (getQuantityAndAdjustedTotal price totalCost bidPrecision askPrecision).quantity :=
        mul_le_mul_of_nonneg_left h1 hp.le
  have hadj : totalCost ≤
      (getQuantityAndAdjustedTotal price totalCost bidPrecision askPrecision).adjustedTotal := by
    rw [hadj_eq]
    exact hnot.trans (le_rdUp_of_nonneg _ _ (le_trans ht.le hnot))
  refine ⟨hq, hadj_eq, hnot, hadj, ?_⟩
  rw [hadj_eq]
  exact rdUp_den _ _

/-- Witness for C6 (amended) at price 2, target cost 1 and both precisions 2;
the quotient 0.5 is exact at 20 decimal places. -/
theorem quantity_and_adjusted_total_spec_witness :
    (0 : ℚ) < 2 ∧ (0 : ℚ) < 1 ∧ bnDiv 1 2 = 1 / 2
    ∧ ((getQuantityAndAdjustedTotal 2 1 2 2).quantity = rdUp 2 ((1 : ℚ) / 2)
      ∧ (getQuantityAndAdjustedTotal 2 1 2 2).adjustedTotal
          = rdUp 2 (2 * (getQuantityAndAdjustedTotal 2 1 2 2).quantity)
      ∧ (1 : ℚ) ≤ 2 * (getQuantityAndAdjustedTotal 2 1 2 2).quantity
      ∧ (1 : ℚ) ≤ (getQuantityAndAdjustedTotal 2 1 2 2).adjustedTotal
      ∧ ∃ n : ℤ, (getQuantityAndAdjustedTotal 2 1 2 2).adjustedTotal = (n : ℚ) / 10 ^ 2) :=
  ⟨by norm_num, by norm_num,
    by
      rw [bnDiv_eval 1 2 (5 * 10 ^ 19) (by norm_num) (by norm_num) (by norm_num)]
      norm_num,
    quantity_and_adjusted_total_spec 2 1 2 2 (by norm_num) (by norm_num)
      (by
        rw [bnDiv_eval 1 2 (5 * 10 ^ 19) (by norm_num) (by norm_num) (by norm_num)]
        norm_num)⟩

/-- Counterexample to C6 as stated: at the finite positive inputs
price 1000000 and target cost 10^(-15), the exact quotient 10^(-21) underflows
the 20-decimal-place `dividedBy` rounding of bignumber.js to 0, so the
returned quantity is 0 and differs from `round_up` of the exact quotient, and
the adjusted total falls below the target cost. -/
theorem quantity_formula_cex :
    (0 : ℚ) < 1000000 ∧ (0 : ℚ) < 1 / 1000000000000000
    ∧ (getQuantityAndAdjustedTotal 1000000 (1 / 1000000000000000) 8 6).quantity = 0
    ∧ rdUp 8 ((1 / 1000000000000000) / 1000000) = 1 / 100000000
    ∧ (getQuantityAndAdjustedTotal 1000000 (1 / 1000000000000000) 8 6).quantity
        ≠ rdUp 8 ((1 / 1000000000000000) / 1000000)
    ∧ (getQuantityAndAdjustedTotal 1000000 (1 / 1000000000000000) 8 6).adjustedTotal
        < 1 / 1000000000000000 := by
  have hdiv : bnDiv (1 / 1000000000000000) 1000000 = 0 := by
    rw [bnDiv_eval _ _ 0 (by norm_num) (by norm_num) (by norm_num)]
    norm_num
  have hq : (getQuantityAndAdjustedTotal 1000000 (1 / 1000000000000000) 8 6).quantity = 0 := by
    simp only [getQuantityAndAdjustedTotal]
    rw [hdiv, rdUp_zero]
  have hadj : (getQuantityAndAdjustedTotal 1000000 (1 / 1000000000000000) 8 6).adjustedTotal
      = 0 := by
    simp only [getQuantityAndAdjustedTotal]
    rw [hdiv, rdUp_zero, mul_zero, rdUp_zero]
  have hup : rdUp 8 ((1 / 1000000000000000) / 1000000) = 1 / 100000000 := by
    rw [rdUp_eval _ _ 1 (by norm_num) (by norm_num) (by norm_num)]
    norm_num
  refine ⟨by norm_num, by norm_num, hq, hup, ?_, ?_⟩
  · rw [hq, hup]
    norm_num
  · rw [hadj]
    norm_num

/-- C7 (amended): for a positive selected reference price and positive grid
interval, buy prices are non-increasing and sell prices non-decreasing in the
ladder index (adjacent levels can coincide after rounding to the ask-token
precision), every buy price is at most the reference price, every sell price
is at least the reference price, and the unrounded ladder values are strictly
monotone. -/
theorem ladder_monotone (cfg : MMConfig) (sym : String) (md : MarketDetails) (i j : ℕ)
    (href : 0 < selectStartPrice (getBase cfg.pairs sym) md)
    (hint : 0 < getGridInterval cfg.pairs sym) (hij : i ≤ j) :
    (createBuyOrder cfg sym md j).price ≤ (createBuyOrder cfg sym md i).price
    ∧ (createSellOrder cfg sym md i).price ≤ (createSellOrder cfg sym md j).price
    ∧ (createBuyOrder cfg sym md i).price ≤ selectStartPrice (getBase cfg.pairs sym) md
    ∧ selectStartPrice (getBase cfg.pairs sym) md ≤ (createSellOrder cfg sym md i).price
    ∧ (i < j →
        selectStartPrice (getBase cfg.pairs sym) md
            * (1 - getGridInterval cfg.pairs sym * ((j : ℚ) + 1))
          < selectStartPrice (getBase cfg.pairs sym) md
            * (1 - getGridInterval cfg.pairs sym * ((i : ℚ) + 1))
        ∧ selectStartPrice (getBase cfg.pairs sym) md
            * (1 + getGridInterval cfg.pairs sym * ((i : ℚ) + 1))
          < selectStartPrice (getBase cfg.pairs sym) md
            * (1 + getGridInterval cfg.pairs sym * ((j : ℚ) + 1))) := by
  simp only [createBuyOrder_price_eq, createSellOrder_price_eq]
  set r := selectStartPrice (getBase cfg.pairs sym) md with hrdef
  set t := getGridInterval cfg.pairs sym with htdef
  have hcast : (i : ℚ) ≤ (j : ℚ) := by exact_mod_cast hij
  have hi0 : (0 : ℚ) ≤ (i : ℚ) := Nat.cast_nonneg i
  refine ⟨?_, ?_, ?_, ?_, ?_⟩
  · apply rdDown_mono
    apply mul_le_mul_of_nonneg_left _ href.le
    nlinarith
  · apply rdUp_mono
    apply mul_le_mul_of_nonneg_left _ href.le
    nlinarith
  · have hx : (0 : ℚ) ≤ r * t * ((i : ℚ) + 1) :=
      mul_nonneg (mul_nonneg href.le hint.le) (by linarith)
    by_cases hv : 0 ≤ r * (1 - t * ((i : ℚ) + 1))
    · have h1 := rdDown_le_of_nonneg md.market.ask_token.precision _ hv
      have h2 : r * (1 - t * ((i : ℚ) + 1)) ≤ r := by nlinarith [hx]
      linarith
    · have h1 := rdDown_nonpos md.market.ask_token.precision _ (lt_of_not_le hv)
      linarith
  · have hx : (0 : ℚ) ≤ r * t * ((i : ℚ) + 1) :=
      mul_nonneg (mul_nonneg href.le hint.le) (by linarith)
    have hw : r ≤ r * (1 + t * ((i : ℚ) + 1)) := by nlinarith [hx]
    have h2 := le_rdUp_of_nonneg md.market.ask_token.precision (r * (1 + t * ((i : ℚ) + 1)))
      (by nlinarith [hx])
    linarith
  · intro hlt
    have hcl : (i : ℚ) < (j : ℚ) := by exact_mod_cast hlt
    have key : t * ((i : ℚ) + 1) < t * ((j : ℚ) + 1) := by nlinarith
    constructor
    · exact mul_lt_mul_of_pos_left (by linarith) href
    · exact mul_lt_mul_of_pos_left (by linarith) href

/-- Witness for C7 (amended) at a concrete configuration with reference price
101 and grid interval 0.01, indices 0 and 1. -/
theorem ladder_monotone_witness :
    0 < selectStartPrice (getBase cfgBid.pairs ("A")) mdBid
    ∧ 0 < getGridInterval cfgBid.pairs ("A")
    ∧ (0 : ℕ) ≤ 1
    ∧ ((createBuyOrder cfgBid ("A") mdBid 1).price ≤ (createBuyOrder cfgBid ("A") mdBid 0).price
      ∧ (createSellOrder cfgBid ("A") mdBid 0).price ≤ (createSellOrder cfgBid ("A") mdBid 1).price
      ∧ (createBuyOrder cfgBid ("A") mdBid 0).price
          ≤ selectStartPrice (getBase cfgBid.pairs ("A")) mdBid
      ∧ selectStartPrice (getBase cfgBid.pairs ("A")) mdBid
          ≤ (createSellOrder cfgBid ("A") mdBid 0).price
      ∧ ((0 : ℕ) < 1 →
          selectStartPrice (getBase cfgBid.pairs ("A")) mdBid
              * (1 - getGridInterval cfgBid.pairs ("A") * (((1 : ℕ) : ℚ) + 1))
            < selectStartPrice (getBase cfgBid.pairs ("A")) mdBid
              * (1 - getGridInterval cfgBid.pairs ("A") * (((0 : ℕ) : ℚ) + 1))
          ∧ selectStartPrice (getBase cfgBid.pairs ("A")) mdBid
              * (1 + getGridInterval cfgBid.pairs ("A") * (((0 : ℕ) : ℚ) + 1))
            < selectStartPrice (getBase cfgBid.pairs ("A")) mdBid
              * (1 + getGridInterval cfgBid.pairs ("A") * (((1 : ℕ) : ℚ) + 1)))) := by
  have h1 : 0 < selectStartPrice (getBase cfgBid.pairs ("A")) mdBid := by
    rw [selectStartPrice_mdBid]
    norm_num
  have h2 : 0 < getGridInterval cfgBid.pairs ("A") := by
    rw [getGridInterval_cfgBid]
    norm_num
  exact ⟨h1, h2, by norm_num, ladder_monotone cfgBid ("A") mdBid 0 1 h1 h2 (by norm_num)⟩

/-- Counterexample to the strict monotonicity stated in C7: with reference
price 100, positive grid interval 10^(-10) and ask precision 2, the buy
prices at indices 0 and 1 are equal after rounding, and so are the sell
prices. -/
theorem ladder_strict_cex :
    0 < getGridInterval cfgTinyInterval.pairs ("A")
    ∧ 0 < selectStartPrice (getBase cfgTinyInterval.pairs ("A")) mdFlat
    ∧ (createBuyOrder cfgTinyInterval ("A") mdFlat 1).price
        = (createBuyOrder cfgTinyInterval ("A") mdFlat 0).price
    ∧ (createSellOrder cfgTinyInterval ("A") mdFlat 1).price
        = (createSellOrder cfgTinyInterval ("A") mdFlat 0).price := by
  have hprec : mdFlat.market.ask_token.precision = 2 := rfl
  have hb0 : (createBuyOrder cfgTinyInterval ("A") mdFlat 0).price = 9999 / 100 := by
    rw [createBuyOrder_price_eq, selectStartPrice_mdFlat, getGridInterval_cfgTiny, hprec]
    rw [rdDown_eval _ _ 9999 (by norm_num) (by norm_num) (by norm_num)]
    norm_num
  have hb1 : (createBuyOrder cfgTinyInterval ("A") mdFlat 1).price = 9999 / 100 := by
    rw [createBuyOrder_price_eq, selectStartPrice_mdFlat, getGridInterval_cfgTiny, hprec]
    rw [rdDown_eval _ _ 9999 (by norm_num) (by norm_num) (by norm_num)]
    norm_num
  have hs0 : (createSellOrder cfgTinyInterval ("A") mdFlat 0).price = 10001 / 100 := by
    rw [createSellOrder_price_eq, selectStartPrice_mdFlat, getGridInterval_cfgTiny, hprec]
    rw [rdUp_eval _ _ 10001 (by norm_num) (by norm_num) (by norm_num)]
    norm_num
  have hs1 : (createSellOrder cfgTinyInterval ("A") mdFlat 1).price = 10001 / 100 := by
    rw [createSellOrder_price_eq, selectStartPrice_mdFlat, getGridInterval_cfgTiny, hprec]
    rw [rdUp_eval _ _ 10001 (by norm_num) (by norm_num) (by norm_num)]
    norm_num
  refine ⟨?_, ?_, ?_, ?_⟩
  · rw [getGridInterval_cfgTiny]
    norm_num
  · rw [selectStartPrice_mdFlat]
    norm_num
  · rw [hb0, hb1]
  · rw [hs0, hs1]

/-- C1: evaluated at the failing input for the claim. With configured base
BID and a snapshot having highest bid 100, lowest ask 102 and last price 101,
the source selects the bid-ask average 101 as the ladder anchor instead of
the highest bid 100, because the `new String` wrapper makes every `switch`
case comparison fail; the buy price built from it therefore differs from the
price the spec mapping would produce. -/
theorem reference_price_selection_bug :
    getBase cfgBid.pairs ("A") = "BID"
    ∧ mdBid.highestBid = 100
    ∧ selectStartPrice (getBase cfgBid.pairs ("A")) mdBid = 101
    ∧ selectReference ("BID") mdBid = 100
    ∧ selectStartPrice (getBase cfgBid.pairs ("A")) mdBid ≠ selectReference ("BID") mdBid
    ∧ (createBuyOrder cfgBid ("A") mdBid 0).price = 9999 / 100
    ∧ rdDown 2 (selectReference ("BID") mdBid * (1 - 1/100)) = 99
    ∧ (createBuyOrder cfgBid ("A") mdBid 0).price
        ≠ rdDown 2 (selectReference ("BID") mdBid * (1 - 1/100)) := by
  have hgb : getBase cfgBid.pairs ("A") = "BID" := rfl
  have hsr : selectReference ("BID") mdBid = 100 := rfl
  have hsp := selectStartPrice_mdBid (getBase cfgBid.pairs ("A"))
  have hbuy : (createBuyOrder cfgBid ("A") mdBid 0).price = 9999 / 100 := by
    rw [createBuyOrder_price_eq, selectStartPrice_mdBid, getGridInterval_cfgBid,
      show mdBid.market.ask_token.precision = 2 from rfl]
    rw [rdDown_eval _ _ 9999 (by norm_num) (by norm_num) (by norm_num)]
    norm_num
  have hspec : rdDown 2 (selectReference ("BID") mdBid * (1 - 1/100)) = 99 := by
    rw [hsr]
    rw [rdDown_eval _ _ 9900 (by norm_num) (by norm_num) (by norm_num)]
    norm_num
  refine ⟨hgb, rfl, hsp, hsr, ?_, hbuy, hspec, ?_⟩
  · rw [hsp, hsr]
    norm_num
  · rw [hbuy, hspec]
    norm_num

/-- C2: evaluated at the failing input for the claim. With two configured
pairs A and B and pair A already holding `gridLevels` buy and sell orders,
the cycle logs the no-op message for A and then stops: the `return` on line
224 exits the whole loop, so pair B is never processed (its log line never
appears) although the claim says processing continues with subsequent
pairs. -/
theorem saturated_pair_aborts_cycle :
    trade cfgTwoPairs envSaturatedA =
      ([LogEvent.info ("Executing A market maker trades on account bot"),
        LogEvent.info ("nothing to do - we have enough orders on the books for A")], [])
    ∧ LogEvent.info ("Executing B market maker trades on account bot")
        ∉ (trade cfgTwoPairs envSaturatedA).1 := by
  decide

/-- C8: evaluated at the failing input for the claim. The thrown
market-not-found error for pair X is caught at the pair boundary, logged with
its message, and the remaining pairs Y and Z are still processed in the same
cycle; but the rejected submissions of the prepared orders, although they
occur while processing the pairs, never reach the log, because `placeOrders`
fires each submission without awaiting it, so submission failures bypass the
pair error boundary. -/
theorem error_boundary_eval :
    (trade cfgThreePairs envMissingX).1 =
      [LogEvent.info ("Executing X market maker trades on account bot"),
       LogEvent.error ("Market X does not exist"),
       LogEvent.info ("Executing Y market maker trades on account bot"),
       LogEvent.info ("Executing Z market maker trades on account bot")]
    ∧ SubmitOutcome.failed ("order rejected by venue") ∈ (trade cfgThreePairs envMissingX).2
    ∧ LogEvent.error ("order rejected by venue") ∉ (trade cfgThreePairs envMissingX).1 := by
  decide
